import Mathlib

/-!
Verification development for the bitarchitect bidirectional binary-format
engine.  The definitions below are shallow embeddings of the Python source
in `src/bitarchitect` (`bit_utils.py`, `bits_io.py`, `pattern.py`):
Python integers are modelled as `Nat`/`Int`, byte strings as `List Nat`
(each entry one byte value), and Python code that can raise is modelled in
`Except String`.  Each definition is translated from the corresponding
source function, including its corner-case behaviour (for example the
semantics of the Python slice `xs[:-k]` at `k = 0`).
-/

namespace Bitarchitect

/-- Python floor division `a // b` for a positive divisor (Euclidean and
floor division agree when the divisor is positive). -/
def pyDiv (a b : Int) : Int := Int.ediv a b

/-- Python remainder `a % b` for a positive divisor (always non-negative). -/
def pyMod (a b : Int) : Int := Int.emod a b

/-- Python `int(ceil(a/8))`, as used by `uint_to_bytes` in `bit_utils.py`. -/
def ceilDiv8 (a : Int) : Int := -(Int.ediv (-a) 8)

/-- Python slice `xs[:-k]` for a non-negative `k`: for `k = 0` it is
`xs[:0] = []`, for `k > 0` it drops the last `k` elements.  This mirrors
`bytes_data[:-rstrip_bytes]` in `bytes_to_uint` exactly. -/
def pySliceTakeNeg (l : List Nat) (k : Nat) : List Nat :=
  if k = 0 then [] else l.take (l.length - k)

/-- Python slice `xs[k:]` for an `Int` index (negative indices count from
the end), as used by `BitsIO.find`. -/
def pySliceFrom (l : List Nat) (k : Int) : List Nat :=
  l.drop (if k < 0 then ((l.length : Int) + k).toNat else k.toNat)

/-- Binary length of a natural number with explicit fuel (the fuel `u`
itself always suffices, since the length is at most `u` for `u > 0`). -/
def bitLenFuel : Nat → Nat → Nat
  | 0, _ => 0
  | fuel + 1, n => if n = 0 then 0 else bitLenFuel fuel (n / 2) + 1

/-- `min_bits_uint` from `bit_utils.py`: minimum number of bits needed to
represent an unsigned integer (`floor(1+log2(u))` for `u > 0`, else 0 —
the binary length of `u`). -/
def min_bits_uint (u : Nat) : Nat := bitLenFuel u u

/-- The bit-reversal loop of `reverse_uint`: peel `k` low bits off `u`,
pushing each onto `r`. -/
def bitrevLoop : Nat → Nat → Nat → Nat
  | 0, _, r => r
  | k + 1, u, r => bitrevLoop k (u / 2) (2 * r + u % 2)

/-- `reverse_uint(uint, num_bits)` from `bit_utils.py`: raises when the
value needs more than `num_bits` bits, otherwise returns the value with its
`num_bits`-bit binary representation reversed. -/
def reverse_uintE (u : Nat) (nb : Int) : Except String Nat :=
  if (min_bits_uint u : Int) > nb then
    .error "Input uint must be storable in at most num_bits number of bits"
  else .ok (bitrevLoop nb.toNat u 0)

/-- `invert_uint(uint, num_bits)` from `bit_utils.py`: raises when the
value needs more than `num_bits` bits, otherwise XORs with `(1<<num_bits)-1`. -/
def invert_uintE (u : Nat) (nb : Int) : Except String Nat :=
  if (min_bits_uint u : Int) > nb then
    .error "Input uint must be storable in at most num_bits number of bits"
  else .ok (u ^^^ (2 ^ nb.toNat - 1))

/-- `invert_byte_table[v]` from `bit_utils.py` (`invert_uint(v, 8)` on a
byte value). -/
def invert8 (v : Nat) : Nat := v ^^^ 255

/-- `reverse_byte_table[v]` from `bit_utils.py` (`reverse_uint(v, 8)` on a
byte value). -/
def reverse8 (v : Nat) : Nat := bitrevLoop 8 v 0

/-- `reverse_bytes` from `bit_utils.py`: reverse the byte order and the bit
order inside each byte. -/
def reverse_bytesF (b : List Nat) : List Nat := (b.reverse).map reverse8

/-- `invert_bytes` from `bit_utils.py`: invert every bit of every byte. -/
def invert_bytesF (b : List Nat) : List Nat := b.map invert8

/-- `lmask_byte(num_mask_bits, value)` from `bit_utils.py`. -/
def lmask_byte (k v : Nat) : Nat := (((1 <<< k) - 1) <<< (8 - k)) &&& v

/-- `rmask_byte(num_mask_bits, value)` from `bit_utils.py`. -/
def rmask_byte (k v : Nat) : Nat := ((1 <<< k) - 1) &&& v

/-- Apply `f` to the head byte of a list (Python `bytes_data[0] = f(...)`);
the callers only use it on lists already checked non-empty. -/
def mapHead (f : Nat → Nat) : List Nat → List Nat
  | [] => []
  | b :: rest => f b :: rest

/-- Apply `f` to the last byte of a list (Python `bytes_data[-1] = f(...)`);
the callers only use it on lists already checked non-empty. -/
def mapLast (f : Nat → Nat) : List Nat → List Nat
  | [] => []
  | [b] => [f b]
  | b :: rest => b :: mapLast f rest

/-- The byte-extraction loop of `uint_to_bytes`: `k` rounds of
`divmod(uint, 256)`, least significant byte first. -/
def toLEBytes : Nat → Nat → List Nat
  | _, 0 => []
  | u, k + 1 => (u % 256) :: toLEBytes (u / 256) k

/-- The big-endian accumulation `sum(b << (8*(n-p-1)) ...)` of
`bytes_to_uint`, where `n` is the length captured before any stripping. -/
def beVal (n : Nat) (bd : List Nat) : Nat :=
  (bd.enum).foldl (fun acc pb => acc + pb.2 * 256 ^ (n - pb.1 - 1)) 0

/-- `bytes_to_uint(bytes_data, lstrip, rstrip, reverse, invert)` from
`bit_utils.py`, translated line by line.  In particular the right-strip
branch runs the Python slice `bytes_data[:-rstrip_bytes]`, which for
`rstrip_bytes = 0` (any `rstrip` in 1..7) empties the list: `pySliceTakeNeg`
reproduces this.  Returns `(value, num_bits)`. -/
def bytes_to_uint (bytes0 : List Nat) (lstrip0 rstrip0 : Nat) (rev inv : Bool) :
    Except String (Nat × Int) := do
  let num_bits : Int := 8 * (bytes0.length : Int) - (lstrip0 : Int) - (rstrip0 : Int)
  let n := bytes0.length
  let bd := if inv then bytes0.map invert8 else bytes0
  let (bd, lstrip) ←
    if lstrip0 > 0 then
      if lstrip0 ≤ bd.length * 8 then
        let lstripBytes := lstrip0 / 8
        let ls := lstrip0 % 8
        let bd := bd.drop lstripBytes
        let bd := if bd.length > 0 then mapHead (fun b => rmask_byte (8 - ls) b) bd else bd
        pure (bd, ls)
      else .error "lstrip value exceeded number of bits in bytes object"
    else pure (bd, lstrip0)
  let (bd, rstrip) ←
    if rstrip0 > 0 then
      if rstrip0 ≤ bd.length * 8 then
        let rstripBytes := rstrip0 / 8
        let rs := rstrip0 % 8
        let bd := pySliceTakeNeg bd rstripBytes
        let bd := if bd.length > 0 then mapLast (fun b => lmask_byte (8 - rs) b) bd else bd
        pure (bd, rs)
      else .error "rstrip value exceeded number of bits in bytes object"
    else pure (bd, rstrip0)
  let bd := if rev then (bd.reverse).map reverse8 else bd
  let result := beVal n bd
  if rev then
    return (result >>> lstrip, num_bits)
  else
    return (result >>> rstrip, num_bits)

/-- `uint_to_bytes(uint, num_bits, loffset, lvalue, rvalue, reverse, invert)`
from `bit_utils.py`, translated line by line; `bytes_data[-1]`/`bytes_data[0]`
assignments on an empty list surface as the `IndexError` the Python list
indexing would raise. -/
def uint_to_bytes (uint0 : Int) (numBits0 : Option Int) (loffset : Nat)
    (lvalue rvalue : Nat) (rev inv : Bool) : Except String (List Nat) := do
  if uint0 < 0 then .error "Input uint must be non-negative" else
  if loffset ≥ 8 then .error "loffset must be between 0 and 7 inclusive" else
  if lvalue > 255 then .error "lvalue must be between 0 and 255 inclusive" else
  if rvalue > 255 then .error "rvalue must be between 0 and 255 inclusive" else do
  let u0 := uint0.toNat
  let minBits := min_bits_uint u0
  match numBits0 with
  | some nb =>
    if (minBits : Int) > |nb| then
      .error "Input uint must be storable in at most num_bits number of bits"
    else pure ()
  | none => pure ()
  let nb : Int := numBits0.getD (minBits : Int)
  let numBytes : Int := ceilDiv8 nb
  let extraBits : Int := numBytes * 8 - nb
  let (u, numBytes, roffset) :=
    if rev = false then
      let roffset := extraBits - (loffset : Int)
      let (numBytes, roffset) :=
        if roffset < 0 then (numBytes + 1, roffset + 8) else (numBytes, roffset)
      (u0 <<< roffset.toNat, numBytes, roffset)
    else
      let u := u0 <<< loffset
      let roffset := extraBits - (loffset : Int)
      let (numBytes, roffset) :=
        if roffset < 0 then (numBytes + 1, roffset + 8) else (numBytes, roffset)
      (u, numBytes, roffset)
  let bytesData := toLEBytes u numBytes.toNat
  let bytesData := if rev then (bytesData.reverse).map reverse8 else bytesData
  let bytesData := if inv then bytesData.map invert8 else bytesData
  let bytesData ←
    if loffset > 0 then
      match bytesData with
      | [] => .error "IndexError: list index out of range"
      | _ => pure (mapLast (fun b => rmask_byte (8 - loffset) b ||| lmask_byte loffset lvalue) bytesData)
    else pure bytesData
  let bytesData ←
    if roffset > 0 then
      match bytesData with
      | [] => .error "IndexError: list index out of range"
      | _ => pure (mapHead (fun b => lmask_byte (8 - roffset.toNat) b ||| rmask_byte roffset.toNat rvalue) bytesData)
    else pure bytesData
  return bytesData.reverse

/-! ## The bit-level buffer (`bits_io.py`, class `BitsIO`)

The byte source is a `BytesIO` buffer: a byte list plus a byte position.
`BitsIO` additionally keeps the bit seek position `bit_seek_pos`.  All
positions are Python `int`s, modelled as `Int`. -/

/-- The state of a `BitsIO` object over a `BytesIO` byte source. -/
structure BitsIOState where
  data : List Nat
  bytePos : Int
  bitPos : Int
deriving Repr, DecidableEq

/-- The three seek reference points `SEEK_SET` / `SEEK_CUR` / `SEEK_END`. -/
inductive Whence where
  | set | cur | end_
deriving Repr, DecidableEq

/-- `BytesIO.seek`: move the byte position; Python raises `ValueError` on a
negative resulting position and allows seeking past the end. -/
def pyByteSeek (st : BitsIOState) (off : Int) (w : Whence) : Except String BitsIOState :=
  let npos :=
    match w with
    | .set => off
    | .cur => st.bytePos + off
    | .end_ => (st.data.length : Int) + off
  if npos < 0 then .error "ValueError: negative seek value"
  else .ok { st with bytePos := npos }

/-- `BytesIO.read(k)`: read up to `k` bytes at the current byte position
(short or empty result past the end), advancing the byte position by the
number of bytes actually read. -/
def pyRead (st : BitsIOState) (k : Nat) : List Nat × BitsIOState :=
  let avail := (st.data.drop st.bytePos.toNat).take k
  (avail, { st with bytePos := st.bytePos + avail.length })

/-- `list(byte_source.read(1))[0]`: one byte at the current position, or the
`IndexError` Python raises when `read(1)` comes back empty at end of file. -/
def pyRead1 (st : BitsIOState) : Except String (Nat × BitsIOState) :=
  match pyRead st 1 with
  | ([b], st) => .ok (b, st)
  | _ => .error "IndexError: list index out of range"

/-- `BytesIO.write`: overwrite bytes at the current byte position, zero
filling any gap when the position is past the end, extending as needed. -/
def pyWriteBytes (st : BitsIOState) (bs : List Nat) : BitsIOState :=
  let p := st.bytePos.toNat
  let pre := st.data.take p ++ List.replicate (p - st.data.length) 0
  { st with
    data := pre ++ bs ++ st.data.drop (p + bs.length)
    bytePos := st.bytePos + bs.length }

/-- `BitsIO.seek(offset_bits, whence)`: split the offset with `divmod(.,8)`,
delegate the byte part to the byte source, and recompute `bit_seek_pos`.
Returns the new bit position, like the source. -/
def seekB (st : BitsIOState) (offsetBits : Int) (w : Whence) : Except String (Int × BitsIOState) := do
  let ob := pyDiv offsetBits 8
  let rb := pyMod offsetBits 8
  let st ← pyByteSeek st ob w
  let bp := st.bytePos * 8 + rb
  .ok (bp, { st with bitPos := bp })

/-- `BitsIO.__len__`: total number of bits (seek to end, read the position,
seek back; the net state effect is nil). -/
def lenB (st : BitsIOState) : Int := 8 * (st.data.length : Int)

/-- `BitsIO.read(n, reverse, invert)` translated line by line from
`bits_io.py`: `n = None` reads to the end, `n = 0` returns `(0, 0)`,
positive `n` reads forward and negative `n` reads backward with the bit
order flipped.  Returns `((value, num_bits), state)`. -/
def readB (st : BitsIOState) (n? : Option Int) (rev inv : Bool) :
    Except String ((Nat × Int) × BitsIOState) := do
  let n : Int := match n? with | none => lenB st - st.bitPos | some n => n
  if n = 0 then .ok ((0, 0), st) else do
  let startPos := st.bitPos
  let endPos := st.bitPos + n
  let sb := pyDiv startPos 8
  let sr := pyMod startPos 8
  let eb := pyDiv endPos 8
  let er := pyMod endPos 8
  let ob := eb - sb
  let (numBytes, lstrip, rstrip, rev, st) ←
    if n > 0 then
      let numBytes := ob + (if er > 0 then 1 else 0)
      let rstrip : Int := if er > 0 then 8 - er else 0
      pure (numBytes, sr, rstrip, rev, st)
    else do
      let numBytes := -ob + (if sr > 0 then 1 else 0)
      let rstrip : Int := if sr > 0 then 8 - sr else 0
      let st ← pyByteSeek st ob .cur
      pure (numBytes, er, rstrip, !rev, st)
  let (bytesData, st) := pyRead st numBytes.toNat
  let (value, numBits) ← bytes_to_uint bytesData lstrip.toNat rstrip.toNat rev inv
  let (_, st) ← seekB st endPos .set
  .ok ((value, numBits), st)

/-- `BitsIO.write(value, n, reverse, invert)` translated line by line from
`bits_io.py`; `n = None` raises (`write` demands an `int`), `n = 0` is a
no-op; partial first/last bytes are merged with the existing bytes, which
are fetched with `read(1)` (the fetch raises `IndexError` at end of file). -/
def writeB (st : BitsIOState) (value : Int) (n? : Option Int) (rev inv : Bool) :
    Except String BitsIOState := do
  match n? with
  | none => .error "input n must be int"
  | some n =>
  if n = 0 then .ok st else do
  let startPos := st.bitPos
  let endPos := st.bitPos + n
  let sb := pyDiv startPos 8
  let sr := pyMod startPos 8
  let eb := pyDiv endPos 8
  let er := pyMod endPos 8
  let (firstBytePos, lastBytePos, loffset, rev, st) ←
    if n > 0 then
      pure (sb, eb, sr, rev, st)
    else do
      let st ← pyByteSeek st eb .set
      pure (eb, sb, er, !rev, st)
  let (firstByte, st) ←
    if loffset > 0 then pyRead1 st else pure (0, st)
  let lastByteLmask := pyMod (loffset + n) 8
  let roffset := pyMod (8 - lastByteLmask) 8
  let (lastByte, st) ←
    if roffset > 0 then do
      let st ← pyByteSeek st lastBytePos .set
      pyRead1 st
    else pure (0, st)
  let st ← pyByteSeek st firstBytePos .set
  let bytesData ← uint_to_bytes value (some n) loffset.toNat firstByte lastByte rev inv
  let st := pyWriteBytes st bytesData
  let (_, st) ← seekB st endPos .set
  .ok st

/-- `BitsIO.reverse(n)`: read the next `n` bits (or all remaining bits for
`n = None`), bit-reverse the value, write it back, and restore the seek
position. -/
def reverseOp (st : BitsIOState) (n? : Option Int) : Except String BitsIOState := do
  let startPos := st.bitPos
  let ((value, numBits), st) ← readB st n? false false
  let value ← reverse_uintE value numBits
  let (_, st) ← seekB st startPos .set
  let st ← writeB st value (some numBits) false false
  let (_, st) ← seekB st startPos .set
  .ok st

/-- `BitsIO.invert(n)`: like `reverseOp` but inverting every bit. -/
def invertOp (st : BitsIOState) (n? : Option Int) : Except String BitsIOState := do
  let startPos := st.bitPos
  let ((value, numBits), st) ← readB st n? false false
  let value ← invert_uintE value numBits
  let (_, st) ← seekB st startPos .set
  let st ← writeB st value (some numBits) false false
  let (_, st) ← seekB st startPos .set
  .ok st

/-- The scanning loop behind Python `bytes.find(sub)`: first index at which
`sub` is a prefix of the remaining data, else `-1` (an empty `sub` matches
at the start). -/
def pyFindAux (sub : List Nat) : List Nat → Nat → Int
  | [], i => if sub = [] then (i : Int) else -1
  | d :: rest, i =>
    if sub.isPrefixOf (d :: rest) then (i : Int) else pyFindAux sub rest (i + 1)

/-- Python `data.find(sub)` on byte strings. -/
def pyFind (data sub : List Nat) : Int := pyFindAux sub data 0

/-- `BitsIO.find(sub)` from `bits_io.py`: requires a byte-aligned bit
position, searches the buffer suffix from the current byte for the literal,
and returns `byte_offset * 8` — which is `-8` when `bytes.find` reports
`-1` for "not found".  The buffer and both positions are untouched (the
`getbuffer` branch taken by a `BytesIO` source copies the buffer). -/
def findB (st : BitsIOState) (sub : List Nat) : Except String (Int × BitsIOState) := do
  let pos := st.bitPos
  if pyMod pos 8 ≠ 0 then
    .error "find() method requires bit position to be a multiple of 8"
  else
    let bytePos := pyDiv pos 8
    let data := pySliceFrom st.data bytePos
    let byteOffset := pyFind data sub
    .ok (byteOffset * 8, st)

/-! ## Modification log and coordinate translation (`pattern.py`, class `Maker`) -/

/-- The `ModType` enumeration from `pattern.py`. -/
inductive ModType where
  | REVERSE | INVERT | ENDIANSWAP | PULL | ENDIANCHECK
deriving Repr, DecidableEq

/-- One record of `Maker.mod_operations`: a tuple
`(token, modtype, start, offset, num_bits)`, where `num_bits` may be the
Python `None` ("to end of buffer at replay time"). -/
structure ModRec where
  tok : String
  modtype : ModType
  start : Int
  offset : Int
  num_bits : Option Int
deriving Repr, DecidableEq

/-- One loop iteration of `Maker._translate_to_original` /
`_translate_from_original`: compute `mstart = start + offset` and
`mend = mstart + num_bits` (a Python `TypeError` when `num_bits` is `None`),
then reflect positions inside `[mstart, mend]` for `REVERSE` records, pass
`INVERT`/`ENDIANCHECK` through, and raise on any other modtype. -/
def transStep (p : Int) (r : ModRec) : Except String Int :=
  match r.num_bits with
  | none => .error "TypeError: unsupported operand type(s) for +: int and NoneType"
  | some nb =>
    let mstart := r.start + r.offset
    let mend := mstart + nb
    match r.modtype with
    | .REVERSE => .ok (if mstart ≤ p ∧ p ≤ mend then mend - (p - mstart) else p)
    | .INVERT => .ok p
    | .ENDIANCHECK => .ok p
    | _ => .error "Invalid modtype for _translate_to_original"

/-- `Maker._translate_to_original(pos)`: replay the modification log in
reverse temporal order (`mod_operations[::-1]`). -/
def translate_to_original (log : List ModRec) (p : Int) : Except String Int :=
  (log.reverse).foldlM transStep p

/-- `Maker._translate_from_original(orig_pos)`: replay the modification log
in forward order. -/
def translate_from_original (log : List ModRec) (p : Int) : Except String Int :=
  log.foldlM transStep p

/-- The pure reflection performed by one `REVERSE` record with a numeric
`num_bits`; records of the kinds the translation functions pass through
leave the position unchanged. -/
def transStepP (p : Int) (r : ModRec) : Int :=
  match r.num_bits, r.modtype with
  | some nb, .REVERSE =>
    let mstart := r.start + r.offset
    let mend := mstart + nb
    if mstart ≤ p ∧ p ≤ mend then mend - (p - mstart) else p
  | _, _ => p

/-- A record the translation functions accept without raising in the scope
of the amended claim: a `REVERSE` record with a numeric `num_bits`. -/
def RevRec (r : ModRec) : Prop := r.modtype = ModType.REVERSE ∧ r.num_bits ≠ none

instance : DecidablePred RevRec := fun r => by
  unfold RevRec; infer_instance


/-! ## Data values, data trees, flatten / deflatten (`pattern.py`)

A Python data value is an int, a byte string, a text string, `None`, or a
(nested) list of values; `Val` and `ValList` model this as a mutual
inductive so that all recursions stay structural. -/

mutual
/-- A Python value as stored in the data tree / data stream. -/
inductive Val where
  | int (i : Int)
  | bytes (bs : List Nat)
  | str (s : String)
  | none_
  | list (l : ValList)
/-- A Python list of values. -/
inductive ValList where
  | nil
  | cons (v : Val) (t : ValList)
end

/-- Python list concatenation on `ValList`. -/
def ValList.append : ValList → ValList → ValList
  | .nil, ys => ys
  | .cons x xs, ys => .cons x (xs.append ys)

/-- A one-element `ValList`. -/
def ValList.single (v : Val) : ValList := .cons v .nil

mutual
/-- `flatten` from `pattern.py`, restricted to one tree element: a value
contributes itself and a `'.'`; a sublist contributes its flattening
wrapped in `'['` / `']'`.  The imperative original walks the tree with an
explicit stack, pushing `'['` when it descends, `']'` when it pops a frame,
and finally drops the trailing `']'` of the root frame; `flatL` below is
the structural reading of that loop (the root frame contributes no
brackets). -/
def flatT : Val → List Val × List Char
  | .list l => ((flatL l).1, '[' :: (flatL l).2 ++ [']'])
  | v => ([v], ['.'])
/-- `flatten(data_structure)` from `pattern.py`: returns
`(data_stream, structure_pattern)`. -/
def flatL : ValList → List Val × List Char
  | .nil => ([], [])
  | .cons t ts => ((flatT t).1 ++ (flatL ts).1, (flatT t).2 ++ (flatL ts).2)
end

/-- `flatten` from `pattern.py` (top level). -/
def flatten (l : ValList) : List Val × List Char := flatL l

/-- Close the remaining open frames of the deflatten stack.  The Python
`deflatten` attaches each new sublist to its parent by aliasing at `'['`
time, so when the loop ends with frames still open the parents already
contain the partially built children; folding the parent prefixes back
around `cur` reproduces the returned `data_structure`. -/
def closeFrames : List ValList → ValList → ValList
  | [], cur => cur
  | parent :: rest, cur => closeFrames rest (parent.append (ValList.single (.list cur)))

/-- The loop of `deflatten(structure_pattern, data_stream)` from
`pattern.py`, as a zipper: `stack` holds the already-built prefixes of the
enclosing lists, `cur` the list currently being appended to
(`stack[-1]` in the source).  Characters other than `'['`, `']'`, `'.'`
are ignored, as in the source loop.  A `']'` on an empty stack and a `'.'`
on an exhausted stream are outside the scope of every theorem below (the
source would raise `IndexError` on the step after the former and on the
latter); here they leave the state unchanged / stop consuming. -/
def deflatAux : List Char → List Val → List ValList → ValList → ValList
  | [], _, stack, cur => closeFrames stack cur
  | '[' :: rest, xs, stack, cur => deflatAux rest xs (cur :: stack) .nil
  | ']' :: rest, xs, stack, cur =>
    match stack with
    | parent :: stack => deflatAux rest xs stack (parent.append (ValList.single (.list cur)))
    | [] => deflatAux rest xs [] cur
  | '.' :: rest, xs, stack, cur =>
    match xs with
    | x :: xs => deflatAux rest xs stack (cur.append (ValList.single x))
    | [] => deflatAux rest [] stack cur
  | _ :: rest, xs, stack, cur => deflatAux rest xs stack cur

/-- `deflatten(structure_pattern, data_stream)` from `pattern.py`. -/
def deflatten (sp : List Char) (xs : List Val) : ValList :=
  deflatAux sp xs [] .nil

/-- Balanced structure patterns: the empty pattern, a `'.'` followed by a
balanced pattern, or a bracketed balanced pattern followed by a balanced
pattern.  This is the grammar of the patterns `flatten` emits. -/
inductive Balanced : List Char → Prop where
  | nil : Balanced []
  | dot {s : List Char} : Balanced s → Balanced ('.' :: s)
  | brk {s₁ s₂ : List Char} : Balanced s₁ → Balanced s₂ →
      Balanced ('[' :: s₁ ++ ']' :: s₂)

/-- Number of `'.'` leaves announced by a structure pattern. -/
def dots (s : List Char) : Nat := s.count '.'

/-! ## Value codec subset and instruction stream (`pattern.py`, `bit_utils.py`)

Only the encodings and directives the claims exercise are carried; the
remaining encodings (floating point, hex / binary strings) and directives
(`MODSET`, `SETLABEL`, `MATCHLABEL`, `ASSERTION`, `TAKEALL`, `MODOFF`) are
untouched by every claim below. -/

/-- The `Encoding` members used by the claims. -/
inductive Encoding where
  | UINT | SINT | BYTS | CHAR
deriving Repr, DecidableEq

/-- The `JumpType` enumeration from `pattern.py`. -/
inductive JumpType where
  | START | FORWARD | BACKWARD | END
deriving Repr, DecidableEq

/-- `uint_decode(uint_value, num_bits, encoding)` from `bit_utils.py` for
the carried encodings; `BYTS`/`CHAR` re-encode through
`uint_to_bytes(uint_value, num_bits + num_bits % 8)`. -/
def uint_decode (v : Nat) (numBits : Int) (e : Encoding) : Except String Val :=
  match e with
  | .UINT => .ok (.int v)
  | .SINT =>
    let msb : Int := 2 ^ (numBits - 1).toNat
    .ok (.int (if (v : Int) ≥ msb then (v : Int) - 2 ^ numBits.toNat else (v : Int)))
  | .BYTS | .CHAR => do
    let numTotalBits := numBits + pyMod numBits 8
    let bs ← uint_to_bytes v (some numTotalBits) 0 0 0 false false
    .ok (.bytes bs)

/-- `uint_encode(value, num_bits, encoding)` from `bit_utils.py` for the
carried encodings; a value of the wrong Python type surfaces as the type
error the arithmetic on it would raise. -/
def uint_encode (v : Val) (numBits : Option Int) (e : Encoding) : Except String Int :=
  match e, v with
  | .UINT, .int i => .ok i
  | .SINT, .int i =>
    .ok (if i ≥ 0 then i else i + 2 ^ (numBits.getD 0).toNat)
  | .BYTS, .bytes bs | .CHAR, .bytes bs => do
    let (u, _) ← bytes_to_uint bs 0 0 false false
    .ok (u : Int)
  | _, _ => .error "TypeError: unsupported value for encoding"

/-- One instruction of the compiled pattern stream: the directive together
with its arguments, restricted to the directives the claims exercise. -/
inductive Instr where
  | value (numBits : Int) (enc : Encoding)
  | zeros (numBits : Int)
  | ones (numBits : Int)
  | next (numBits : Int)
  | mod (numBits : Option Int) (mt : ModType)
  | deflabel (label : String) (v : Val)
  | nestopen
  | nestclose
  | jump (numBits : Int) (jt : JumpType)
  | markerstart (lit : List Nat)
  | markerend (lit : List Nat)
  | takeall (enc : Encoding)
  | modoff (offsetBits : Int) (numBits : Option Int) (mt : ModType)

/-- The `handle_` method name the maker dispatch builds for a directive:
`'handle_' + directive.name.lower()` in `Maker.__call__`. -/
def dispatchName (i : Instr) : String :=
  match i with
  | .value _ _ => "handle_value"
  | .zeros _ => "handle_zeros"
  | .ones _ => "handle_ones"
  | .next _ => "handle_next"
  | .mod _ _ => "handle_mod"
  | .deflabel _ _ => "handle_deflabel"
  | .nestopen => "handle_nestopen"
  | .nestclose => "handle_nestclose"
  | .jump _ _ => "handle_jump"
  | .markerstart _ => "handle_markerstart"
  | .markerend _ => "handle_markerend"
  | .takeall _ => "handle_takeall"
  | .modoff _ _ _ => "handle_modoff"

/-- The `handle_...` methods defined on the `Extractor` class in
`pattern.py` (`handle_marker`, not `handle_markerstart` or
`handle_markerend`). -/
def extractorMethods : List String :=
  ["handle_value", "handle_takeall", "handle_next", "handle_zeros",
   "handle_ones", "handle_mod", "handle_marker", "handle_modoff",
   "handle_modset", "handle_setlabel", "handle_deflabel",
   "handle_matchlabel", "handle_nestopen", "handle_nestclose",
   "handle_assertion", "handle_jump"]

/-! ## The Extractor (`pattern.py`, class `Extractor`) -/

/-- The mutable state of an `Extractor`.  The data-structure stack
(`stack_data`) is carried as a zipper: `parents` holds the already-built
prefixes of the enclosing lists, `cur` is `stack_data[-1]`; the per-call
record stack mirrors the data stack within a single pattern invocation and
only feeds the `__call__` return value, so it is not materialised
separately. -/
structure ExtSt where
  bio : BitsIOState
  reverse_all : Bool
  invert_all : Bool
  endianswap_all : Bool
  last_value : Val
  last_index_stack : Option (List Nat)
  labels : List (String × List (Val × Option (List Nat) × Option Int))
  data_stream : List Val
  flat_labels : List (Option String)
  flat_pattern : List Char
  flat_pos : Nat
  index_stack : List Nat
  parents : List ValList
  cur : ValList
  mod_operations : List ModRec
  tok : String

/-- `Extractor.__init__(byte_stream)`. -/
def extInit (bytes : List Nat) : ExtSt :=
  { bio := ⟨bytes, 0, 0⟩
    reverse_all := false, invert_all := false, endianswap_all := false
    last_value := .none_, last_index_stack := none
    labels := [], data_stream := [], flat_labels := [], flat_pattern := []
    flat_pos := 0, index_stack := [0], parents := [], cur := .nil
    mod_operations := [], tok := "" }

/-- Increment the last element of a Python list of ints (`xs[-1] += 1`). -/
def bumpLast : List Nat → List Nat
  | [] => []
  | [n] => [n + 1]
  | a :: t => a :: bumpLast t

/-- Append an entry to `labels[label]`, creating the list first when the
label is new (as `handle_setlabel` / `Extractor.handle_deflabel` do). -/
def labelAppend (labels : List (String × List (Val × Option (List Nat) × Option Int)))
    (label : String) (entry : Val × Option (List Nat) × Option Int) :
    List (String × List (Val × Option (List Nat) × Option Int)) :=
  match labels with
  | [] => [(label, [entry])]
  | (l, es) :: rest =>
    if l = label then (l, es ++ [entry]) :: rest
    else (l, es) :: labelAppend rest label entry

/-- Look up `labels[label]`. -/
def labelGet (labels : List (String × List (Val × Option (List Nat) × Option Int)))
    (label : String) : Option (List (Val × Option (List Nat) × Option Int)) :=
  match labels with
  | [] => none
  | (l, es) :: rest => if l = label then some es else labelGet rest label

/-- `Maker.__getitem__(label)`: `self.labels[label][-1][0]`, with the
`KeyError` / `IndexError` Python would raise on a missing label or an
empty entry list. -/
def maker_getitem (st : ExtSt) (label : String) : Except String Val :=
  match labelGet st.labels label with
  | none => .error "KeyError"
  | some es =>
    match es.getLast? with
    | none => .error "IndexError: list index out of range"
    | some e => .ok e.1

/-- `Extractor._insert_data(value)`: append to the current tree frame, the
flat stream, the flat pattern and labels, update `last_value` and the
index bookkeeping. -/
def insertData (st : ExtSt) (v : Val) : ExtSt :=
  { st with
    cur := st.cur.append (ValList.single v)
    data_stream := st.data_stream ++ [v]
    last_value := v
    flat_pattern := st.flat_pattern ++ ['.']
    flat_labels := st.flat_labels ++ [none]
    flat_pos := st.flat_pos + 1
    last_index_stack := some st.index_stack
    index_stack := bumpLast st.index_stack }

/-- The loop inside `Extractor._endianswap`: for `i in range(0, n, 8)`
reverse 8 bits, seek 8 bits forward, and log `(pos, i, 8)`. -/
def endianLoop (tok : String) (pos : Int) : Nat → Int → BitsIOState → List ModRec →
    Except String (BitsIOState × List ModRec)
  | 0, _, bio, mods => .ok (bio, mods)
  | k + 1, i, bio, mods => do
    let bio ← reverseOp bio (some 8)
    let (_, bio) ← seekB bio 8 .cur
    let mods := mods ++ [⟨tok, .REVERSE, pos, i, some 8⟩]
    endianLoop tok pos k (i + 8) bio mods

/-- `Extractor._endianswap(n)`: check the width, reverse the whole span,
then re-reverse each byte, logging every reversal; restore the position. -/
def extEndianswap (st : ExtSt) (n : Int) : Except String ExtSt := do
  if pyMod n 8 ≠ 0 then
    .error "Endian swap must be performed on a multiple of 8 bits"
  else do
    let pos := st.bio.bitPos
    let bio ← reverseOp st.bio (some n)
    let mods := st.mod_operations ++ [⟨st.tok, .REVERSE, pos, 0, some n⟩]
    let (bio, mods) ← endianLoop st.tok pos (pyDiv n 8).toNat 0 bio mods
    let (_, bio) ← seekB bio pos .set
    .ok { st with bio := bio, mod_operations := mods }

/-- `Extractor._apply_settings(num_bits, encoding)`: apply the three
"all" settings in order (reverse, invert, endian swap), each logging its
modification; the endian swap is skipped for `CHAR`. -/
def applySettings (st : ExtSt) (numBits : Option Int) (enc : Encoding) :
    Except String ExtSt := do
  let pos := st.bio.bitPos
  let st ←
    if st.reverse_all then do
      let bio ← reverseOp st.bio numBits
      pure { st with
        bio := bio
        mod_operations := st.mod_operations ++ [⟨st.tok, .REVERSE, pos, 0, numBits⟩] }
    else pure st
  let st ←
    if st.invert_all then do
      let bio ← invertOp st.bio numBits
      pure { st with
        bio := bio
        mod_operations := st.mod_operations ++ [⟨st.tok, .INVERT, pos, 0, numBits⟩] }
    else pure st
  if st.endianswap_all ∧ enc ≠ .CHAR then
    match numBits with
    | some n => extEndianswap st n
    | none => .error "TypeError: unsupported operand type(s) for %: NoneType and int"
  else pure st

/-- `Extractor._consume_bits(num_bits, encoding)`: apply the settings,
read, check the extracted bit count (`IncompleteDataError`), decode. -/
def consumeBits (st : ExtSt) (numBits : Int) (enc : Encoding) :
    Except String (Val × ExtSt) := do
  let st ← applySettings st (some numBits) enc
  let ((uintValue, numExtracted), bio) ← readB st.bio (some numBits) false false
  let st := { st with bio := bio }
  if numExtracted ≠ numBits then .error "IncompleteDataError"
  else do
    let v ← uint_decode uintValue numBits enc
    .ok (v, st)

/-- `Extractor._pull(m, n)`: for `n = None`, compute `n` as the distance
from `pos + m` to the end and insert it as a data value; then perform the
triple reversal `r(m+n); r(n); r(n).(m)` with its three log records,
restoring the position.  Returns `n`. -/
def extPull (st : ExtSt) (m : Int) (n? : Option Int) : Except String (Int × ExtSt) := do
  let pos := st.bio.bitPos
  let (n, st) ←
    match n? with
    | none =>
      let L := lenB st.bio
      let n := L - (pos + m)
      pure (n, insertData st (.int n))
    | some n => pure (n, st)
  let bio ← reverseOp st.bio (some (m + n))
  let mods := st.mod_operations ++ [⟨st.tok, .REVERSE, pos, 0, some (m + n)⟩]
  let bio ← reverseOp bio (some n)
  let mods := mods ++ [⟨st.tok, .REVERSE, pos, 0, some n⟩]
  let (_, bio) ← seekB bio n .cur
  let bio ← reverseOp bio (some m)
  let mods := mods ++ [⟨st.tok, .REVERSE, pos, n, some m⟩]
  let (_, bio) ← seekB bio pos .set
  .ok (n, { st with bio := bio, mod_operations := mods })

/-- `Extractor.handle_value(num_bits, encoding)`. -/
def handleValue (st : ExtSt) (numBits : Int) (enc : Encoding) : Except String ExtSt := do
  let (v, st) ← consumeBits st numBits enc
  .ok (insertData st v)

/-- `Extractor.handle_next(num_bits)`: advance the cursor, emit nothing. -/
def handleNext (st : ExtSt) (numBits : Int) : Except String ExtSt := do
  let (_, bio) ← seekB st.bio numBits .cur
  .ok { st with bio := bio }

/-- `Extractor.handle_zeros(num_bits)`: consume and require the value 0. -/
def handleZeros (st : ExtSt) (numBits : Int) : Except String ExtSt := do
  let (v, st) ← consumeBits st numBits .UINT
  match v with
  | .int i => if i = 0 then .ok st else .error "ZerosError"
  | _ => .error "ZerosError"

/-- `Extractor.handle_ones(num_bits)`: consume and require all ones. -/
def handleOnes (st : ExtSt) (numBits : Int) : Except String ExtSt := do
  let (v, st) ← consumeBits st numBits .UINT
  let allOnes : Int := 2 ^ numBits.toNat - 1
  match v with
  | .int i => if i = allOnes then .ok st else .error "OnesError"
  | _ => .error "OnesError"

/-- `Extractor.handle_mod(num_bits, modtype)`: apply in place at the
cursor, log the record; `num_bits = None` means "to end". -/
def handleMod (st : ExtSt) (numBits : Option Int) (mt : ModType) : Except String ExtSt := do
  let pos := st.bio.bitPos
  match mt with
  | .REVERSE => do
    let bio ← reverseOp st.bio numBits
    .ok { st with
      bio := bio
      mod_operations := st.mod_operations ++ [⟨st.tok, .REVERSE, pos, 0, numBits⟩] }
  | .INVERT => do
    let bio ← invertOp st.bio numBits
    .ok { st with
      bio := bio
      mod_operations := st.mod_operations ++ [⟨st.tok, .INVERT, pos, 0, numBits⟩] }
  | .ENDIANSWAP =>
    match numBits with
    | some n => extEndianswap st n
    | none => .error "TypeError: unsupported operand type(s) for %: NoneType and int"
  | _ => .error "Invalid modtype"

/-- `Extractor.handle_deflabel(label, value)` exactly as written in the
source: it appends `(self.last_value, None, None)` — the `value` argument
parsed from the token is ignored. -/
def handleDeflabel (st : ExtSt) (label : String) (_value : Val) : ExtSt :=
  { st with labels := labelAppend st.labels label (st.last_value, none, none) }

/-- `Extractor.handle_nestopen()`. -/
def handleNestopen (st : ExtSt) : ExtSt :=
  { st with
    parents := st.cur :: st.parents
    cur := .nil
    flat_pattern := st.flat_pattern ++ ['[']
    index_stack := st.index_stack ++ [0] }

/-- `Extractor.handle_nestclose()`: raise `NestingError` on underflow,
otherwise close the current frame into its parent; `last_value` becomes
the record just closed (the record stack and the data stack hold the same
elements within one pattern invocation). -/
def handleNestclose (st : ExtSt) : Except String ExtSt :=
  match st.parents with
  | [] => .error "NestingError: there exists a ] with no matching ["
  | parent :: rest =>
    .ok { st with
          last_value := .list st.cur
          cur := parent.append (ValList.single (.list st.cur))
          parents := rest
          flat_pattern := st.flat_pattern ++ [']']
          index_stack := bumpLast st.index_stack.dropLast }

/-- `Extractor.handle_marker(bytes_literal)` as defined in the source
(note: the directive dispatch never reaches this method, see
`extStep`): check byte alignment, adjust the literal for the active
settings, `find` it, open a nest, insert the bit offset `m`, pull with
`n = None` (which inserts `n`), close the nest, then consume the literal
and require it to match. -/
def handleMarker (st : ExtSt) (bytesLiteral : List Nat) : Except String ExtSt := do
  let origLiteral := bytesLiteral
  let pos := st.bio.bitPos
  if pyMod pos 8 ≠ 0 then
    .error "Marker operation must occur when bit seek position is a multiple of 8"
  else do
    let bytesLiteral := if st.invert_all then invert_bytesF bytesLiteral else bytesLiteral
    let bytesLiteral := if st.reverse_all then reverse_bytesF bytesLiteral else bytesLiteral
    let bytesLiteral := if st.endianswap_all then bytesLiteral.reverse else bytesLiteral
    let (m, bio) ← findB st.bio bytesLiteral
    let st := { st with bio := bio }
    let st := handleNestopen st
    let st := insertData st (.int m)
    let (_, st) ← extPull st m none
    let st ← handleNestclose st
    let (marker, st) ← consumeBits st (8 * bytesLiteral.length) .BYTS
    match marker with
    | .bytes bs =>
      if bs = origLiteral then .ok st
      else .error "Marker scan consumption did not match expected bytes literal"
    | _ => .error "Marker scan consumption did not match expected bytes literal"

/-- `Extractor.handle_jump(num_bits, jump_type)` exactly as written in the
source: for `FORWARD` / `BACKWARD` the first statement formats
`target_orig` into a debug message before the variable is assigned, which
raises `UnboundLocalError`; for `START` / `END` the target format-spec
position is computed, translated to a buffer position, and a negative
offset raises while a positive offset performs an unbounded pull. -/
def handleJump (st : ExtSt) (numBits : Int) (jt : JumpType) : Except String ExtSt := do
  let pos := st.bio.bitPos
  let L := lenB st.bio
  match jt with
  | .FORWARD | .BACKWARD =>
    .error "UnboundLocalError: local variable target_orig referenced before assignment"
  | .START | .END => do
    let targetOrig : Int := if jt = .END then L else 0
    let targetOrig := if jt = .START then targetOrig + numBits else targetOrig - numBits
    let target ← translate_from_original st.mod_operations targetOrig
    let offset := target - pos
    if offset < 0 then .error "Jump is to already parsed location"
    else if offset > 0 then do
      let (_, st) ← extPull st offset none
      .ok st
    else .ok st

/-- `Extractor.handle_takeall(encoding)` as written in the source: check
byte alignment, apply the settings to the remaining width, then call
`BitsIO.read_bytes`, whose second statement references the nonexistent
attribute `self.seek_bit_pos` (the field is `bit_seek_pos`), raising
`AttributeError`. -/
def handleTakeall (st : ExtSt) (enc : Encoding) : Except String ExtSt := do
  let pos := st.bio.bitPos
  if pyMod pos 8 ≠ 0 then
    .error "requires the bit seek position to be on a byte boundary"
  else do
    let L := lenB st.bio
    let numBits := L - st.bio.bitPos
    let _ ← applySettings st (some numBits) enc
    .error "AttributeError: BitsIO object has no attribute seek_bit_pos"

/-- `Extractor.handle_modoff(offset_bits, num_bits, modtype)`: seek `+m`,
act on `n` bits (computing and inserting `n` first for the "to end"
forms), log the record, and restore the position. -/
def handleModoff (st : ExtSt) (offsetBits : Int) (numBits : Option Int) (mt : ModType) :
    Except String ExtSt := do
  let pos := st.bio.bitPos
  let st ←
    match mt with
    | .REVERSE => do
      let (n, st) ←
        match numBits with
        | none =>
          let L := lenB st.bio
          let n := L - (pos + offsetBits)
          pure (n, insertData st (.int n))
        | some n => pure (n, st)
      let (_, bio) ← seekB st.bio offsetBits .cur
      let bio ← reverseOp bio (some n)
      pure { st with
        bio := bio
        mod_operations := st.mod_operations ++ [⟨st.tok, .REVERSE, pos, offsetBits, some n⟩] }
    | .INVERT => do
      let (n, st) ←
        match numBits with
        | none =>
          let L := lenB st.bio
          let n := L - (pos + offsetBits)
          pure (n, insertData st (.int n))
        | some n => pure (n, st)
      let (_, bio) ← seekB st.bio offsetBits .cur
      let bio ← invertOp bio (some n)
      pure { st with
        bio := bio
        mod_operations := st.mod_operations ++ [⟨st.tok, .INVERT, pos, offsetBits, some n⟩] }
    | .PULL => do
      let (_, st) ← extPull st offsetBits numBits
      pure st
    | _ => .error "Invalid modtype"
  let (_, bio) ← seekB st.bio pos .set
  .ok { st with bio := bio }

/-- One step of `Extractor.__call__`: set `self.tok`, build the method
name `'handle_' + directive.name.lower()` and dispatch.  For
`MARKERSTART` / `MARKEREND` the `getattr` fails — the class defines
`handle_marker` but no `handle_markerstart` / `handle_markerend` (see
`extractorMethods`) — so those directives raise `AttributeError`. -/
def extStep (st : ExtSt) (i : Instr) : Except String ExtSt :=
  let st := { st with tok := dispatchName i }
  match i with
  | .value n e => handleValue st n e
  | .zeros n => handleZeros st n
  | .ones n => handleOnes st n
  | .next n => handleNext st n
  | .mod n mt => handleMod st n mt
  | .deflabel l v => .ok (handleDeflabel st l v)
  | .nestopen => .ok (handleNestopen st)
  | .nestclose => handleNestclose st
  | .jump n jt => handleJump st n jt
  | .markerstart _ =>
    .error "AttributeError: Extractor object has no attribute handle_markerstart"
  | .markerend _ =>
    .error "AttributeError: Extractor object has no attribute handle_markerend"
  | .takeall e => handleTakeall st e
  | .modoff m n mt => handleModoff st m n mt

/-- `Extractor.__call__` over an already-compiled instruction stream. -/
def runExt (instrs : List Instr) (st : ExtSt) : Except String ExtSt :=
  instrs.foldlM extStep st

/-- `Extractor.finalize()`: fail on unbalanced nesting, otherwise the
data structure (the bottom stack frame, here `cur`) is the result. -/
def extFinalize (st : ExtSt) : Except String ExtSt :=
  match st.parents with
  | [] => .ok st
  | _ => .error "NestingError: There exists a [ with no matching ]"

/-- `extract(blueprint, byte_stream)` for a pattern blueprint, returning
the finalized extractor state. -/
def extractModel (instrs : List Instr) (input : List Nat) : Except String ExtSt := do
  let st ← runExt instrs (extInit input)
  extFinalize st

/-! ## The Constructor (`pattern.py`, class `Constructor`) -/

/-- The mutable state of a `Constructor`.  As for the extractor, the
per-call record stack is carried as a zipper (`parents` / `cur`). -/
structure ConSt where
  bio : BitsIOState
  data_stream : List Val
  flat_pattern : List Char
  flat_labels : List (Option String)
  flat_pos : Nat
  index_stack : List Nat
  reverse_all : Bool
  invert_all : Bool
  endianswap_all : Bool
  last_value : Val
  last_index_stack : Option (List Nat)
  labels : List (String × List (Val × Option (List Nat) × Option Int))
  mod_operations : List ModRec
  parents : List ValList
  cur : ValList
  tok : String

/-- `Constructor.__init__(data_structure)`: flatten the input tree into
the data stream and start with an empty bit buffer. -/
def conInit (tree : ValList) : ConSt :=
  let fl := flatten tree
  { bio := ⟨[], 0, 0⟩
    data_stream := fl.1
    flat_pattern := fl.2
    flat_labels := List.replicate fl.1.length none
    flat_pos := 0
    index_stack := [0]
    reverse_all := false, invert_all := false, endianswap_all := false
    last_value := .none_, last_index_stack := none
    labels := [], mod_operations := []
    parents := [], cur := .nil
    tok := "" }

/-- `Constructor._consume_data(num_bits, encoding)`: pop the next stream
value (`IndexError` when the stream is exhausted), append it to the
record, encode it, and update the bookkeeping.  Returns
`(uint_value, value)`. -/
def conConsumeData (st : ConSt) (numBits : Option Int) (enc : Encoding) :
    Except String (Int × Val × ConSt) := do
  match st.data_stream.get? st.flat_pos with
  | none => .error "IndexError: list index out of range"
  | some value => do
    let uintValue ← uint_encode value numBits enc
    .ok (uintValue, value,
      { st with
        flat_pos := st.flat_pos + 1
        cur := st.cur.append (ValList.single value)
        last_value := value
        last_index_stack := some st.index_stack
        index_stack := bumpLast st.index_stack })

/-- `Constructor._endianswap(n)` exactly as written in the source: its
first statement is `pos = self.tell()`, and neither `Constructor` nor the
`Maker` base class defines a `tell` method, so it raises
`AttributeError`. -/
def conEndianswap (_st : ConSt) (_n : Option Int) : Except String ConSt :=
  .error "AttributeError: Constructor object has no attribute tell"

/-- `Constructor._apply_settings(num_bits, encoding)`: the settings only
schedule modification records (the endian swap dying on its `tell` call,
see `conEndianswap`). -/
def conApplySettings (st : ConSt) (numBits : Option Int) (enc : Encoding) :
    Except String ConSt := do
  let pos := st.bio.bitPos
  let st :=
    if st.reverse_all then
      { st with mod_operations := st.mod_operations ++ [⟨st.tok, .REVERSE, pos, 0, numBits⟩] }
    else st
  let st :=
    if st.invert_all then
      { st with mod_operations := st.mod_operations ++ [⟨st.tok, .INVERT, pos, 0, numBits⟩] }
    else st
  if st.endianswap_all ∧ enc ≠ .CHAR then conEndianswap st numBits
  else pure st

/-- `Constructor._insert_bits(uint_value, num_bits, encoding)`. -/
def conInsertBits (st : ConSt) (uintValue : Int) (numBits : Int) (enc : Encoding) :
    Except String ConSt := do
  let st ← conApplySettings st (some numBits) enc
  let bio ← writeB st.bio uintValue (some numBits) false false
  .ok { st with bio := bio }

/-- `Constructor._pull(m, n)`: pop `n` from the stream when the token said
"to end", then schedule the three reversal records. -/
def conPull (st : ConSt) (m : Int) (n? : Option Int) : Except String (Int × ConSt) := do
  let (n, st) ←
    match n? with
    | none => do
      let (u, _, st) ← conConsumeData st none .UINT
      pure (u, st)
    | some n => pure (n, st)
  let pos := st.bio.bitPos
  let mods := st.mod_operations
    ++ [⟨st.tok, .REVERSE, pos, 0, some (m + n)⟩]
    ++ [⟨st.tok, .REVERSE, pos, 0, some n⟩]
    ++ [⟨st.tok, .REVERSE, pos, n, some m⟩]
  .ok (n, { st with mod_operations := mods })

/-- `Constructor.handle_value(num_bits, encoding)`. -/
def conHandleValue (st : ConSt) (numBits : Int) (enc : Encoding) : Except String ConSt := do
  let (u, _, st) ← conConsumeData st (some numBits) enc
  conInsertBits st u numBits enc

/-- `Constructor.handle_next(num_bits)`: write `num_bits` zero bits. -/
def conHandleNext (st : ConSt) (numBits : Int) : Except String ConSt := do
  let bio ← writeB st.bio 0 (some numBits) false false
  .ok { st with bio := bio }

/-- `Constructor.handle_zeros(num_bits)`: write zeros. -/
def conHandleZeros (st : ConSt) (numBits : Int) : Except String ConSt :=
  conInsertBits st 0 numBits .UINT

/-- `Constructor.handle_ones(num_bits)`: write all ones. -/
def conHandleOnes (st : ConSt) (numBits : Int) : Except String ConSt :=
  conInsertBits st (2 ^ numBits.toNat - 1) numBits .UINT

/-- `Constructor.handle_mod(num_bits, modtype)` exactly as written in the
source: the endian swap calls `_endianswap` (which raises, see
`conEndianswap`); every other modtype runs
`self.mod_operations.append((self.tok, mod_type, ...))`, and the name
`mod_type` is undefined (the parameter is `modtype`), a `NameError`. -/
def conHandleMod (st : ConSt) (numBits : Option Int) (mt : ModType) : Except String ConSt :=
  match mt with
  | .ENDIANSWAP => conEndianswap st numBits
  | _ => .error "NameError: name mod_type is not defined"

/-- `Constructor.handle_deflabel(label, value)`: appends
`(value, None, None)` — with no existence check, so a first binding of a
label raises `KeyError`. -/
def conHandleDeflabel (st : ConSt) (label : String) (v : Val) : Except String ConSt :=
  match labelGet st.labels label with
  | none => .error "KeyError"
  | some _ => .ok { st with labels := labelAppend st.labels label (v, none, none) }

/-- `Constructor.handle_nestopen()`. -/
def conHandleNestopen (st : ConSt) : ConSt :=
  { st with
    parents := st.cur :: st.parents
    cur := .nil
    index_stack := st.index_stack ++ [0] }

/-- `Constructor.handle_nestclose()`: `last_value` becomes the record
being closed; with no enclosing frame the record is re-wrapped
(`data_record = [data_record]`) instead of raising. -/
def conHandleNestclose (st : ConSt) : ConSt :=
  let st := { st with last_value := .list st.cur }
  match st.parents with
  | [] =>
    { st with
      cur := ValList.single (.list st.cur)
      index_stack := bumpLast st.index_stack.dropLast }
  | parent :: rest =>
    { st with
      cur := parent.append (ValList.single (.list st.cur))
      parents := rest
      index_stack := bumpLast st.index_stack.dropLast }

/-- `Constructor.handle_marker(bytes_literal)` as defined in the source
(the directive dispatch never reaches it, as for the extractor): pop `m`
and `n` inside a nest, schedule the pull, write the literal. -/
def conHandleMarker (st : ConSt) (bytesLiteral : List Nat) : Except String ConSt := do
  let numBits : Int := 8 * bytesLiteral.length
  let pos := st.bio.bitPos
  if pyMod pos 8 ≠ 0 then
    .error "Marker operation requires bit seek position to be a multiple of 8"
  else do
    let st := conHandleNestopen st
    let (m, _, st) ← conConsumeData st none .UINT
    let (n, _, st) ← conConsumeData st none .UINT
    let st := conHandleNestclose st
    let (_, st) ← conPull st m (some n)
    let u ← uint_encode (.bytes bytesLiteral) (some numBits) .BYTS
    conInsertBits st u numBits .BYTS

/-- `Constructor.handle_jump(num_bits, jump_type)` exactly as written in
the source: its first statement is `pos = self.tell()`, and no `tell`
method exists on the class, so every jump raises `AttributeError` during
construction. -/
def conHandleJump (_st : ConSt) (_numBits : Int) (_jt : JumpType) : Except String ConSt :=
  .error "AttributeError: Constructor object has no attribute tell"

/-- `Constructor.handle_takeall(encoding)` pops the next stream value and
unpacks it as a triple `(first_byte_value, first_byte_bits, bytes_data)`;
the carried value types contain no such triple, and no claim exercises
construction take-all, so the unpacking is represented by the `TypeError`
Python raises for a non-unpackable value. -/
def conHandleTakeall (st : ConSt) (_enc : Encoding) : Except String ConSt :=
  match st.data_stream.get? st.flat_pos with
  | none => .error "IndexError: list index out of range"
  | some _ => .error "TypeError: cannot unpack stream value"

/-- `Constructor.handle_modoff(offset_bits, num_bits, modtype)` exactly as
written in the source: pop `n` from the stream for the "to end" forms;
`PULL` schedules the triple reversal, while every other modtype runs
`self.mod_operations.append((self.tok, mod_type, ...))` where the name
`mod_type` is undefined — a `NameError`. -/
def conHandleModoff (st : ConSt) (offsetBits : Int) (numBits : Option Int) (mt : ModType) :
    Except String ConSt := do
  let (n, st) ←
    match numBits with
    | none => do
      let (u, _, st) ← conConsumeData st none .UINT
      pure (u, st)
    | some n => pure (n, st)
  match mt with
  | .PULL => do
    let (_, st) ← conPull st offsetBits (some n)
    .ok st
  | _ => .error "NameError: name mod_type is not defined"

/-- One step of `Constructor.__call__` (same `getattr` dispatch as the
extractor, with the same missing `handle_markerstart` /
`handle_markerend` methods). -/
def conStep (st : ConSt) (i : Instr) : Except String ConSt :=
  let st := { st with tok := dispatchName i }
  match i with
  | .value n e => conHandleValue st n e
  | .zeros n => conHandleZeros st n
  | .ones n => conHandleOnes st n
  | .next n => conHandleNext st n
  | .mod n mt => conHandleMod st n mt
  | .deflabel l v => conHandleDeflabel st l v
  | .nestopen => .ok (conHandleNestopen st)
  | .nestclose => .ok (conHandleNestclose st)
  | .jump n jt => conHandleJump st n jt
  | .markerstart _ =>
    .error "AttributeError: Constructor object has no attribute handle_markerstart"
  | .markerend _ =>
    .error "AttributeError: Constructor object has no attribute handle_markerend"
  | .takeall e => conHandleTakeall st e
  | .modoff m n mt => conHandleModoff st m n mt

/-- `Constructor.__call__` over a compiled instruction stream. -/
def runCon (instrs : List Instr) (st : ConSt) : Except String ConSt :=
  instrs.foldlM conStep st

/-- One replayed record of `Constructor.finalize()`: resolve a `None`
width against the final buffer length, check `ENDIANCHECK` widths, and
apply `REVERSE` / `INVERT` in place at `start + offset`. -/
def conFinalizeStep (L : Int) (bio : BitsIOState) (r : ModRec) : Except String BitsIOState := do
  let nb := match r.num_bits with
    | none => L - (r.start + r.offset)
    | some x => x
  match r.modtype with
  | .ENDIANCHECK =>
    if pyMod nb 8 ≠ 0 then
      .error "Endian swap must be performed on a multiple of 8 bits"
    else .ok bio
  | .REVERSE => do
    let (_, bio) ← seekB bio (r.start + r.offset) .set
    reverseOp bio (some nb)
  | .INVERT => do
    let (_, bio) ← seekB bio (r.start + r.offset) .set
    invertOp bio (some nb)
  | _ => .error "Invalid modtype"

/-- `Constructor.finalize()`: check the nesting stack, then replay the
modification log in reverse temporal order and restore the position. -/
def conFinalize (st : ConSt) : Except String ConSt :=
  match st.parents with
  | _ :: _ => .error "NestingError: There exists a [ with no matching ]"
  | [] => do
    let pos := st.bio.bitPos
    let L := lenB st.bio
    let bio ← (st.mod_operations.reverse).foldlM (conFinalizeStep L) st.bio
    let (_, bio) ← seekB bio pos .set
    .ok { st with bio := bio }

/-- `construct(blueprint, data_structure)` for a pattern blueprint,
returning the finalized constructor state. -/
def constructModel (instrs : List Instr) (tree : ValList) : Except String ConSt := do
  let st ← runCon instrs (conInit tree)
  conFinalize st

/-- The round trip of claim C1: extract a data tree from the input bytes,
construct from that tree with the same instruction stream, and return the
bytes of the constructed buffer. -/
def roundtripModel (instrs : List Instr) (input : List Nat) : Except String (List Nat) := do
  let est ← extractModel instrs input
  let cst ← constructModel instrs est.cur
  .ok cst.bio.data

/-! ## The tokenizer regex of `pattern_parse` (`pattern.py`)

`tok_parse` is the Python regex

  `\s*([rip]\d+\.(?:\d+|$)|[usfxXbBnpjJrizoeC]\d+|[RIE][ynt]|!#"|#["#]|=#"|[\[\]=\{\}]|[riBC]$|m[$^]"|j[sfbe]\d+)`

applied with `re.match`.  Crucially, the `$` in the alternatives
`[riBC]$` and `(?:\d+|$)` is the end-of-string anchor, not a literal
dollar character (a literal `$` only occurs inside the class `[$^]` of the
marker alternative).  The functions below implement the alternation with
Python `re` semantics: alternatives are tried left to right, `\d+` is
greedy, and `$` matches only at the end of the input (the inputs contain
no trailing newline). -/

/-- Greedy `\d+`: one or more leading digits, returning them and the rest. -/
def matchDigits1 : List Char → Option (List Char × List Char)
  | [] => none
  | c :: cs =>
    if c.isDigit then
      match matchDigits1 cs with
      | some (ds, rest) => some (c :: ds, rest)
      | none => some ([c], cs)
    else none

/-- Alternative `[rip]\d+\.(?:\d+|$)`. -/
def matchAltModoff : List Char → Option (List Char × List Char)
  | c :: cs =>
    if c = 'r' ∨ c = 'i' ∨ c = 'p' then
      match matchDigits1 cs with
      | some (ds, '.' :: cs2) =>
        (match matchDigits1 cs2 with
         | some (ds2, rest) => some (c :: ds ++ '.' :: ds2, rest)
         | none => if cs2 = [] then some (c :: ds ++ ['.'], []) else none)
      | _ => none
    else none
  | [] => none

/-- Alternative `[usfxXbBnpjJrizoeC]\d+`. -/
def matchAltNum : List Char → Option (List Char × List Char)
  | c :: cs =>
    if ("usfxXbBnpjJrizoeC".toList).contains c then
      match matchDigits1 cs with
      | some (ds, rest) => some (c :: ds, rest)
      | none => none
    else none
  | [] => none

/-- Alternative `[RIE][ynt]`. -/
def matchAltSetting : List Char → Option (List Char × List Char)
  | c :: c2 :: cs =>
    if (c = 'R' ∨ c = 'I' ∨ c = 'E') ∧ (c2 = 'y' ∨ c2 = 'n' ∨ c2 = 't') then
      some ([c, c2], cs)
    else none
  | _ => none

/-- Match a literal character sequence. -/
def matchLit (lit : List Char) (cs : List Char) : Option (List Char × List Char) :=
  if lit.isPrefixOf cs then some (lit, cs.drop lit.length) else none

/-- Alternative `#["#]`. -/
def matchAltHash : List Char → Option (List Char × List Char)
  | '#' :: c2 :: cs =>
    if c2 = '"' ∨ c2 = '#' then some (['#', c2], cs) else none
  | _ => none

/-- Alternative `[\[\]=\{\}]`. -/
def matchAltSingle : List Char → Option (List Char × List Char)
  | c :: cs =>
    if c = '[' ∨ c = ']' ∨ c = '=' ∨ c = '{' ∨ c = '}' then some ([c], cs) else none
  | [] => none

/-- Alternative `[riBC]$`: a single letter, accepted only at the very end
of the input (`$` is an anchor). -/
def matchAltEndAnchor : List Char → Option (List Char × List Char)
  | [c] =>
    if c = 'r' ∨ c = 'i' ∨ c = 'B' ∨ c = 'C' then some ([c], []) else none
  | _ => none

/-- Alternative `m[$^]"`. -/
def matchAltMarker : List Char → Option (List Char × List Char)
  | 'm' :: c2 :: '"' :: cs =>
    if c2 = '$' ∨ c2 = '^' then some (['m', c2, '"'], cs) else none
  | _ => none

/-- Alternative `j[sfbe]\d+`. -/
def matchAltJump : List Char → Option (List Char × List Char)
  | 'j' :: c2 :: cs =>
    if c2 = 's' ∨ c2 = 'f' ∨ c2 = 'b' ∨ c2 = 'e' then
      match matchDigits1 cs with
      | some (ds, rest) => some ('j' :: c2 :: ds, rest)
      | none => none
    else none
  | _ => none

/-- The alternation of `tok_parse`, tried in the order the regex lists the
alternatives, after the leading `\s*`. -/
def tokMatch (cs : List Char) : Option (List Char × List Char) :=
  let cs := cs.dropWhile Char.isWhitespace
  (matchAltModoff cs).orElse fun _ =>
  (matchAltNum cs).orElse fun _ =>
  (matchAltSetting cs).orElse fun _ =>
  (matchLit ['!', '#', '"'] cs).orElse fun _ =>
  (matchAltHash cs).orElse fun _ =>
  (matchLit ['=', '#', '"'] cs).orElse fun _ =>
  (matchAltSingle cs).orElse fun _ =>
  (matchAltEndAnchor cs).orElse fun _ =>
  (matchAltMarker cs).orElse fun _ =>
  matchAltJump cs

/-- The leading branches of the `if`/`elif` chain of `pattern_parse` that
turns a matched token into an instruction, in source order: the `'.' in
tok` MODOFF branch, `B$`/`C$` TAKEALL, then `r$` and `i$` — and the `i$`
branch of the source reads `(tok, Directive.MOD, None, ModType.REVERSE)`,
the same `ModType.REVERSE` as `r$`.  Later branches of the chain (value
and width tokens, settings, labels, assertions, repetition, comments,
markers, jumps) handle token shapes no theorem feeds to this function and
are represented by `none`. -/
def instrForTok (tok : String) : Option Instr :=
  let cs := tok.toList
  if cs.contains '.' then
    let before := cs.drop 1 |>.takeWhile (fun c => c ≠ '.')
    let after := cs.drop 1 |>.dropWhile (fun c => c ≠ '.') |>.drop 1
    let m : Int := ((String.mk before).toNat?).getD 0
    let n : Option Int := if cs.contains '$' then none else ((String.mk after).toNat?).map (fun k => (k : Int))
    let mt : Option ModType :=
      match cs.head? with
      | some 'r' => some .REVERSE
      | some 'i' => some .INVERT
      | some 'p' => some .PULL
      | _ => none
    mt.map (fun mt => .modoff m n mt)
  else if tok = "B$" then some (.takeall .BYTS)
  else if tok = "C$" then some (.takeall .CHAR)
  else if tok = "r$" then some (.mod none .REVERSE)
  else if tok = "i$" then some (.mod none .REVERSE)
  else none

/-- Bit `i` of a byte buffer, MSB first within each byte ("bit `i` of the
buffer is bit `7 - (i mod 8)` of byte `i/8`"). -/
def bitAt (data : List Nat) (i : Nat) : Nat :=
  ((data.getD (i / 8) 0) >>> (7 - i % 8)) &&& 1

/-- Modelled from the spec: the value `read(n)` is specified to return for
`n > 0` — "the `n` bits starting at the cursor interpreted as a big-endian
unsigned integer".  Used only to compare the implementation against the
claim. -/
def spec_read_value (data : List Nat) (start n : Nat) : Nat :=
  (List.range n).foldl (fun acc j => 2 * acc + bitAt data (start + j)) 0

/-! ## Round-trip lemmas for flatten / deflatten -/

/-- A scalar (leaf) value: anything but a Python list.  Data streams hold
scalars only ("the in-order flattening of the tree, leaves only"). -/
def scalar : Val → Bool
  | .list _ => false
  | _ => true

theorem ValList.append_nil : ∀ l : ValList, l.append .nil = l
  | .nil => rfl
  | .cons x xs => by rw [ValList.append, ValList.append_nil xs]

theorem ValList.append_assoc : ∀ a b c : ValList,
    (a.append b).append c = a.append (b.append c)
  | .nil, _, _ => rfl
  | .cons x xs, b, c => by
    rw [ValList.append, ValList.append, ValList.append, ValList.append_assoc xs b c]

theorem transStep_ok_of_revRec (p : Int) (r : ModRec) (h : RevRec r) :
    transStep p r = .ok (transStepP p r) := by
  obtain ⟨hm, hn⟩ := h
  obtain ⟨nb, hnb⟩ := Option.ne_none_iff_exists'.mp hn
  simp [transStep, transStepP, hm, hnb]

theorem foldlM_transStep_ok (log : List ModRec) (h : ∀ r ∈ log, RevRec r) :
    ∀ p : Int, log.foldlM transStep p = .ok (log.foldl transStepP p) := by
  induction log with
  | nil => intro p; rfl
  | cons r t ih =>
    intro p
    have hr : RevRec r := h r (List.mem_cons_self r t)
    have ht : ∀ s ∈ t, RevRec s := fun s hs => h s (List.mem_cons_of_mem r hs)
    rw [List.foldlM_cons, transStep_ok_of_revRec p r hr]
    simpa using ih ht (transStepP p r)

theorem transStepP_involutive (p : Int) (r : ModRec) :
    transStepP (transStepP p r) r = p := by
  unfold transStepP
  rcases r with ⟨tok, mt, s, o, nb⟩
  cases nb with
  | none => rfl
  | some n =>
    cases mt
    case REVERSE =>
      simp only
      split_ifs <;> omega
    all_goals rfl

theorem foldl_reverse_foldl_cancel (log : List ModRec) :
    ∀ p : Int, (log.reverse).foldl transStepP (log.foldl transStepP p) = p := by
  induction log with
  | nil => intro p; rfl
  | cons r t ih =>
    intro p
    rw [List.foldl_cons, List.reverse_cons, List.foldl_append]
    rw [ih (transStepP p r)]
    simp [transStepP_involutive]

theorem balanced_append {a b : List Char} (ha : Balanced a) (hb : Balanced b) :
    Balanced (a ++ b) := by
  induction ha with
  | nil => simpa using hb
  | dot _ ih => exact Balanced.dot ih
  | brk h₁ _ _ ih₂ =>
    have := Balanced.brk h₁ ih₂
    simpa [List.append_assoc] using this

theorem flatT_scalar {v : Val} (h : scalar v = true) : flatT v = ([v], ['.']) := by
  cases v <;> first | rfl | exact absurd h (by simp [scalar])

mutual

theorem deflat_flatT : ∀ (t : Val) (rest : List Char) (xs : List Val)
    (stack : List ValList) (cur : ValList),
    deflatAux ((flatT t).2 ++ rest) ((flatT t).1 ++ xs) stack cur
      = deflatAux rest xs stack (cur.append (ValList.single t))
  | .int _, _, _, _, _ => by simp [flatT, deflatAux]
  | .bytes _, _, _, _, _ => by simp [flatT, deflatAux]
  | .str _, _, _, _, _ => by simp [flatT, deflatAux]
  | .none_, _, _, _, _ => by simp [flatT, deflatAux]
  | .list l, rest, xs, stack, cur => by
    have hl := deflat_flatL l (']' :: rest) xs (cur :: stack) ValList.nil
    have hshape : (flatT (Val.list l)).2 ++ rest
        = '[' :: ((flatL l).2 ++ (']' :: rest)) := by simp [flatT]
    rw [hshape]
    have hstep : deflatAux ('[' :: ((flatL l).2 ++ (']' :: rest)))
          ((flatT (Val.list l)).1 ++ xs) stack cur
        = deflatAux ((flatL l).2 ++ (']' :: rest)) ((flatL l).1 ++ xs)
          (cur :: stack) ValList.nil := rfl
    rw [hstep, hl]
    rfl

theorem deflat_flatL : ∀ (l : ValList) (rest : List Char) (xs : List Val)
    (stack : List ValList) (cur : ValList),
    deflatAux ((flatL l).2 ++ rest) ((flatL l).1 ++ xs) stack cur
      = deflatAux rest xs stack (cur.append l)
  | .nil, rest, xs, stack, cur => by simp [flatL, ValList.append_nil]
  | .cons t ts, rest, xs, stack, cur => by
    have h1 := deflat_flatT t ((flatL ts).2 ++ rest) ((flatL ts).1 ++ xs) stack cur
    have h2 := deflat_flatL ts rest xs stack (cur.append (ValList.single t))
    simp only [flatL, List.append_assoc] at *
    rw [h1, h2, ValList.append_assoc]
    rfl

end

/-- Round trip one: deflattening the flattening of any tree gives the tree
back. -/
theorem deflatten_flatten (T : ValList) :
    deflatten (flatten T).2 (flatten T).1 = T := by
  have h := deflat_flatL T [] [] [] ValList.nil
  simp only [List.append_nil] at h
  simpa [deflatten, flatten, deflatAux, closeFrames, ValList.append] using h

mutual

theorem balanced_flatT : ∀ t : Val, Balanced (flatT t).2
  | .int _ => Balanced.dot Balanced.nil
  | .bytes _ => Balanced.dot Balanced.nil
  | .str _ => Balanced.dot Balanced.nil
  | .none_ => Balanced.dot Balanced.nil
  | .list l => by
    have := Balanced.brk (balanced_flatL l) Balanced.nil
    simpa [flatT] using this

theorem balanced_flatL : ∀ l : ValList, Balanced (flatL l).2
  | .nil => Balanced.nil
  | .cons t ts => by
    have := balanced_append (balanced_flatT t) (balanced_flatL ts)
    simpa [flatL] using this

end

theorem dots_append (a b : List Char) : dots (a ++ b) = dots a + dots b := by
  simp [dots, List.count_append]

/-- Core of round trip two: running `deflatAux` over a balanced pattern
with a matching scalar stream builds exactly one tree segment whose
flattening restores the pattern and the stream, and appends it to the
current frame. -/
theorem deflatAux_of_balanced {s : List Char} (hs : Balanced s) :
    ∀ (xs : List Val), dots s = xs.length → (∀ v ∈ xs, scalar v = true) →
    ∀ (ys : List Val) (rest : List Char) (stack : List ValList) (cur : ValList),
      ∃ l : ValList, flatL l = (xs, s) ∧
        deflatAux (s ++ rest) (xs ++ ys) stack cur
          = deflatAux rest ys stack (cur.append l) := by
  induction hs with
  | nil =>
    intro xs hlen _ ys rest stack cur
    have hx : xs = [] := by
      cases xs with
      | nil => rfl
      | cons a t => simp [dots] at hlen
    subst hx
    exact ⟨ValList.nil, rfl, by simp [ValList.append_nil]⟩
  | dot hb ih =>
    intro xs hlen hsc ys rest stack cur
    rename_i s'
    cases xs with
    | nil =>
      exfalso
      simp only [dots, List.count_cons_self, List.length_nil] at hlen
      omega
    | cons x xs' =>
      have hlen' : dots s' = xs'.length := by
        simp only [dots, List.count_cons_self, List.length_cons] at hlen
        simp only [dots]
        omega
      have hscx : scalar x = true := hsc x (List.mem_cons_self x xs')
      have hsc' : ∀ v ∈ xs', scalar v = true := fun v hv => hsc v (List.mem_cons_of_mem x hv)
      obtain ⟨l', hfl', heq'⟩ := ih xs' hlen' hsc' ys rest stack (cur.append (ValList.single x))
      refine ⟨ValList.cons x l', ?_, ?_⟩
      · have hfl : flatL (ValList.cons x l')
            = ((flatT x).1 ++ (flatL l').1, (flatT x).2 ++ (flatL l').2) := rfl
        rw [hfl, flatT_scalar hscx, hfl']
        rfl
      · have hstep : deflatAux (('.' :: s') ++ rest) ((x :: xs') ++ ys) stack cur
            = deflatAux (s' ++ rest) (xs' ++ ys) stack (cur.append (ValList.single x)) := rfl
        rw [hstep, heq', ValList.append_assoc]
        rfl
  | brk hb1 hb2 ih1 ih2 =>
    intro xs hlen hsc ys rest stack cur
    rename_i s₁ s₂
    have hcount : dots ('[' :: s₁ ++ ']' :: s₂) = dots s₁ + dots s₂ := by
      simp [dots, List.count_append, List.count_cons]
    rw [hcount] at hlen
    have h1len : dots s₁ = (xs.take (dots s₁)).length := by
      simp only [List.length_take]
      omega
    have h2len : dots s₂ = (xs.drop (dots s₁)).length := by
      simp only [List.length_drop]
      omega
    have hsc1 : ∀ v ∈ xs.take (dots s₁), scalar v = true :=
      fun v hv => hsc v (List.take_subset _ _ hv)
    have hsc2 : ∀ v ∈ xs.drop (dots s₁), scalar v = true :=
      fun v hv => hsc v (List.drop_subset _ _ hv)
    obtain ⟨l₁, hfl₁, heq₁⟩ := ih1 (xs.take (dots s₁)) h1len hsc1
      (xs.drop (dots s₁) ++ ys) (']' :: (s₂ ++ rest)) (cur :: stack) ValList.nil
    obtain ⟨l₂, hfl₂, heq₂⟩ := ih2 (xs.drop (dots s₁)) h2len hsc2
      ys rest stack (cur.append (ValList.single (Val.list l₁)))
    refine ⟨ValList.cons (Val.list l₁) l₂, ?_, ?_⟩
    · have hfl : flatL (ValList.cons (Val.list l₁) l₂)
          = ((flatT (Val.list l₁)).1 ++ (flatL l₂).1,
             (flatT (Val.list l₁)).2 ++ (flatL l₂).2) := rfl
      rw [hfl]
      simp only [flatT, hfl₁, hfl₂]
      refine Prod.ext ?_ ?_
      · exact List.take_append_drop (dots s₁) xs
      · simp
    · have hx : xs ++ ys = xs.take (dots s₁) ++ (xs.drop (dots s₁) ++ ys) := by
        rw [← List.append_assoc, List.take_append_drop]
      have hsrw : (s₁ ++ ']' :: s₂) ++ rest = s₁ ++ (']' :: (s₂ ++ rest)) := by simp
      have step1 : deflatAux (('[' :: s₁ ++ ']' :: s₂) ++ rest) (xs ++ ys) stack cur
          = deflatAux ((s₁ ++ ']' :: s₂) ++ rest) (xs ++ ys) (cur :: stack) ValList.nil := rfl
      rw [step1, hsrw, hx, heq₁]
      have step2 : deflatAux (']' :: (s₂ ++ rest)) (xs.drop (dots s₁) ++ ys)
            (cur :: stack) (ValList.nil.append l₁)
          = deflatAux (s₂ ++ rest) (xs.drop (dots s₁) ++ ys) stack
            (cur.append (ValList.single (Val.list l₁))) := rfl
      rw [step2, heq₂, ValList.append_assoc]
      rfl

/-! ## Claim theorems -/

theorem pyFindAux_not_found (sub : List Nat) (hne : sub ≠ []) :
    ∀ (data : List Nat), (∀ i < data.length, sub.isPrefixOf (data.drop i) = false) →
    ∀ k : Nat, pyFindAux sub data k = -1
  | [], _, _ => by simp [pyFindAux, hne]
  | d :: rest, h, k => by
    have h0 : sub.isPrefixOf (d :: rest) = false := by
      simpa using h 0 (by simp)
    have hrest : ∀ i < rest.length, sub.isPrefixOf (rest.drop i) = false := by
      intro i hi
      simpa using h (i + 1) (by simpa using Nat.succ_lt_succ hi)
    rw [pyFindAux, if_neg (by simp [h0])]
    exact pyFindAux_not_found sub hne rest hrest (k + 1)

/-- Claim C1: the byte-to-tree-to-byte round trip
`construct(P, extract_data_tree(P, X)) == X` fails on the code.  On the
blueprint `u4 u4` and input byte `0xFF`, extraction succeeds but returns
the tree `[0, 15]` — the first nibble reads as 0 because a read whose end
is not byte-aligned loses its bytes to the `bytes_data[:-0]` slice in
`bytes_to_uint` (the true nibble value per the spec is 15) — and
construction from that tree then raises `IndexError` when `write` fetches
the existing last byte of the still-empty buffer, so no output buffer is
produced at all, let alone one equal to `X`. -/
theorem c1_roundtrip_code_bug :
    roundtripModel [.value 4 .UINT, .value 4 .UINT] [255]
      = .error "IndexError: list index out of range"
    ∧ (extractModel [.value 4 .UINT, .value 4 .UINT] [255]).map ExtSt.data_stream
      = .ok [.int 0, .int 15]
    ∧ spec_read_value [255] 0 4 = 15 :=
  ⟨rfl, rfl, rfl⟩

/-- Claim C2, counterexample: the coordinate-translation functions are not
mutual inverses over every log of Reverse records — a Reverse record whose
`n_bits` is `None` (the data model's "to end" form, as logged by `r$`)
makes `mend = mstart + num_bits` raise `TypeError`, so
`to_format(from_format(0))` is an exception rather than `0`. -/
theorem c2_counterexample :
    (translate_from_original [⟨"r$", ModType.REVERSE, 0, 0, none⟩] 0).bind
        (translate_to_original [⟨"r$", ModType.REVERSE, 0, 0, none⟩])
      = Except.error "TypeError: unsupported operand type(s) for +: int and NoneType"
    ∧ (translate_from_original [⟨"r$", ModType.REVERSE, 0, 0, none⟩] 0).bind
        (translate_to_original [⟨"r$", ModType.REVERSE, 0, 0, none⟩]) ≠ Except.ok 0 := by
  have h1 : (translate_from_original [⟨"r$", ModType.REVERSE, 0, 0, none⟩] 0).bind
      (translate_to_original [⟨"r$", ModType.REVERSE, 0, 0, none⟩])
      = Except.error "TypeError: unsupported operand type(s) for +: int and NoneType" := rfl
  exact ⟨h1, fun h => Except.noConfusion (h1.symm.trans h)⟩

/-- Claim C2, amended: for every modification log of Reverse records that
carry a numeric `n_bits`, and every position `p`, the two
coordinate-translation functions are mutual inverses:
`to_format(from_format(p)) = p` and `from_format(to_format(p)) = p`. -/
theorem c2_translate_inverse (log : List ModRec) (h : ∀ r ∈ log, RevRec r) (p : Int) :
    (translate_from_original log p).bind (translate_to_original log) = .ok p
    ∧ (translate_to_original log p).bind (translate_from_original log) = .ok p := by
  have hrev : ∀ r ∈ log.reverse, RevRec r := fun r hr => h r (List.mem_reverse.mp hr)
  constructor
  · rw [translate_from_original, foldlM_transStep_ok log h p]
    show translate_to_original log (log.foldl transStepP p) = .ok p
    rw [translate_to_original, foldlM_transStep_ok log.reverse hrev]
    rw [foldl_reverse_foldl_cancel]
  · rw [translate_to_original, foldlM_transStep_ok log.reverse hrev p]
    show translate_from_original log ((log.reverse).foldl transStepP p) = .ok p
    rw [translate_from_original, foldlM_transStep_ok log h]
    have hc := foldl_reverse_foldl_cancel log.reverse p
    rw [List.reverse_reverse] at hc
    rw [hc]

/-- Witness for C2 at a concrete log and position. -/
theorem c2_translate_inverse_witness :
    (translate_from_original [⟨"r8", ModType.REVERSE, 0, 0, some 8⟩] 3).bind
        (translate_to_original [⟨"r8", ModType.REVERSE, 0, 0, some 8⟩]) = .ok 3
    ∧ (translate_to_original [⟨"r8", ModType.REVERSE, 0, 0, some 8⟩] 3).bind
        (translate_from_original [⟨"r8", ModType.REVERSE, 0, 0, some 8⟩]) = .ok 3 :=
  c2_translate_inverse [⟨"r8", ModType.REVERSE, 0, 0, some 8⟩] (by decide) 3

/-- Claim C3: of the four jump types, only the absolute ones behave as
claimed.  During extraction a relative jump (`jf`/`jb`) raises
`UnboundLocalError` — `handle_jump` formats `target_orig` into a debug
message before assigning it — while `js`/`je` compute the target, raise on
a negative buffer offset, pull on a positive one, and do nothing at zero
(shown here at concrete states: a backward-pointing `js0` from position 8
raises, `js0` at position 0 is a no-op, and `js8` at position 0 performs
the pull, inserting the computed length). -/
theorem c3_jump_code_bug :
    handleJump (extInit [171]) 0 .FORWARD
      = .error "UnboundLocalError: local variable target_orig referenced before assignment"
    ∧ handleJump (extInit [171]) 0 .BACKWARD
      = .error "UnboundLocalError: local variable target_orig referenced before assignment"
    ∧ handleJump { extInit [171] with bio := ⟨[171], 1, 8⟩ } 0 .START
      = .error "Jump is to already parsed location"
    ∧ handleJump (extInit [171]) 0 .START = .ok (extInit [171])
    ∧ (handleJump (extInit [171]) 8 .START).map ExtSt.data_stream = .ok [.int 0] :=
  ⟨rfl, rfl, rfl, rfl, rfl⟩

/-- Claim C4: the marker scenario `m^"AA" u8 m$"AA"` on
`0x11 0x22 0xAA 0x77` cannot produce the tree `[[16, 8], 0x77]`: the
dispatch builds the method name `handle_markerstart`, which the
`Extractor` class does not define (it defines `handle_marker`), so the
first marker token raises `AttributeError`.  Moreover even the
`handle_marker` method as written, followed by the `u8`, yields the data
`[[16, 16], 0x77]` and pattern `[..].` — the pulled length is 16 bits
(marker plus trailing byte), not 8. -/
theorem c4_marker_code_bug :
    runExt [.markerstart [0xAA], .value 8 .UINT, .markerend [0xAA]]
        (extInit [0x11, 0x22, 0xAA, 0x77])
      = .error "AttributeError: Extractor object has no attribute handle_markerstart"
    ∧ "handle_markerstart" ∉ extractorMethods
    ∧ "handle_markerend" ∉ extractorMethods
    ∧ ((handleMarker { extInit [0x11, 0x22, 0xAA, 0x77] with tok := "m^" } [0xAA]).bind
        (fun st => handleValue st 8 .UINT)).map
          (fun st => (st.data_stream, st.flat_pattern))
      = .ok ([.int 16, .int 16, .int 119], ['[', '.', '.', ']', '.']) :=
  ⟨rfl, by decide, by decide, rfl⟩

/-- Claim C5: `read` does not return the bits at the cursor for every `n`.
Reading 4 bits of the buffer `0xF0` at position 0 returns value 0 (the
end of the span is not byte-aligned, so `bytes_to_uint` empties its byte
list through the `[:-0]` slice), while the four bits are `1111`, value 15
per the spec's description; `read(0)` does return `(0, 0)` with the
cursor unchanged, and a backward read whose low end is byte-aligned also
collapses to 0 by the same defect. -/
theorem c5_read_code_bug :
    readB ⟨[240], 0, 0⟩ (some 4) false false = .ok ((0, 4), ⟨[240], 0, 4⟩)
    ∧ spec_read_value [240] 0 4 = 15
    ∧ (0 : Nat) ≠ 15
    ∧ readB ⟨[240], 0, 0⟩ (some 0) false false = .ok ((0, 0), ⟨[240], 0, 0⟩)
    ∧ readB ⟨[255], 0, 4⟩ (some 4) false false = .ok ((15, 4), ⟨[255], 1, 8⟩) :=
  ⟨rfl, rfl, by decide, rfl, rfl⟩

/-- Claim C6: flattening any finite nested data structure yields a
balanced structure pattern and a data stream from which deflattening
rebuilds the structure exactly; conversely, deflattening any balanced
structure pattern with a matching stream of (scalar) data values and
re-flattening returns exactly the stream and the pattern. -/
theorem c6_flatten_deflatten :
    (∀ T : ValList,
      Balanced (flatten T).2 ∧ deflatten (flatten T).2 (flatten T).1 = T)
    ∧ (∀ (s : List Char) (xs : List Val), Balanced s → dots s = xs.length →
        (∀ v ∈ xs, scalar v = true) → flatten (deflatten s xs) = (xs, s)) := by
  constructor
  · exact fun T => ⟨balanced_flatL T, deflatten_flatten T⟩
  · intro s xs hs hlen hsc
    obtain ⟨l, hfl, heq⟩ := deflatAux_of_balanced hs xs hlen hsc [] [] [] ValList.nil
    rw [List.append_nil, List.append_nil] at heq
    have hdef : deflatten s xs = l := by
      calc deflatten s xs = deflatAux s xs [] ValList.nil := rfl
        _ = deflatAux [] [] [] (ValList.nil.append l) := heq
        _ = l := rfl
    rw [hdef]
    exact hfl

/-- Witness for C6 at a concrete tree and pattern. -/
theorem c6_flatten_deflatten_witness :
    flatten (deflatten ['[', '.', ']', '.'] [Val.int 5, Val.int 7])
      = ([Val.int 5, Val.int 7], ['[', '.', ']', '.']) :=
  c6_flatten_deflatten.2 ['[', '.', ']', '.'] [Val.int 5, Val.int 7]
    (Balanced.brk (Balanced.dot Balanced.nil) (Balanced.dot Balanced.nil))
    (by decide) (by decide)

/-- Claim C7: the token `i$` does not parse into an in-place Invert.  The
tokenizer regex alternative `[riBC]$` uses `$` as the end-of-string
anchor, not a literal dollar, so the two characters `i$` match no
alternative at all and `pattern_parse` fails; and the `elif tok == 'i$'`
branch of the chain, were a token to reach it, builds
`(MOD, None, ModType.REVERSE)` — a reversal, not an inversion. -/
theorem c7_invert_token_code_bug :
    tokMatch "i$".toList = none
    ∧ instrForTok "i$" = some (Instr.mod none ModType.REVERSE)
    ∧ ModType.REVERSE ≠ ModType.INVERT :=
  ⟨rfl, rfl, by decide⟩

/-- Claim C8: `!#"L"=5;` after `u8` over the byte `0x07` binds the label
`L` to the last extracted value 7, not to the literal 5:
`Extractor.handle_deflabel` appends `(self.last_value, None, None)` and
ignores its `value` argument, so the immediately following lookup returns
7. -/
theorem c8_deflabel_code_bug :
    (runExt [.value 8 .UINT, .deflabel "L" (.int 5)] (extInit [7])).bind
        (fun st => maker_getitem st "L")
      = .ok (.int 7)
    ∧ Val.int 7 ≠ Val.int 5 := by
  refine ⟨rfl, fun h => ?_⟩
  injection h with h'
  exact absurd h' (by decide)

/-- Claim C9: `z<n>` does not raise `ZerosError` exactly when the bits are
not all zero.  `z4` on the buffer `0xF0` (bits `1111`) raises nothing —
the underlying read returns 0 for any span whose end is not byte-aligned —
and dually `o4` on the same buffer raises `OnesError` although the bits
are all ones; on byte-aligned widths the check works (`z8` on `0x01`
raises). -/
theorem c9_zeros_ones_code_bug :
    runExt [.zeros 4] (extInit [240])
      = .ok { extInit [240] with bio := ⟨[240], 0, 4⟩, tok := "handle_zeros" }
    ∧ spec_read_value [240] 0 4 = 15
    ∧ (15 : Nat) ≠ 0
    ∧ runExt [.ones 4] (extInit [240]) = .error "OnesError"
    ∧ runExt [.zeros 8] (extInit [1]) = .error "ZerosError" :=
  ⟨rfl, rfl, by decide, rfl, rfl⟩

/-- Claim C10: on a byte-aligned cursor, searching for a byte literal that
occurs at no byte boundary of the remaining buffer returns the bit offset
`-8` (`-1 * 8`) without raising and without moving the cursor or the
buffer state; and the marker scan that consumes such a value proceeds with
the negative offset past the search step — the `handle_marker` method on a
one-byte buffer without the literal fails only later, at the final
consumption check, not at the search. -/
theorem c10_find_not_found (st : BitsIOState) (sub : List Nat)
    (h8 : pyMod st.bitPos 8 = 0) (hne : sub ≠ [])
    (habs : ∀ i < (pySliceFrom st.data (pyDiv st.bitPos 8)).length,
      sub.isPrefixOf ((pySliceFrom st.data (pyDiv st.bitPos 8)).drop i) = false) :
    findB st sub = .ok (-8, st)
    ∧ handleMarker { extInit [0x11] with tok := "m^" } [0xAA]
      = .error "Marker scan consumption did not match expected bytes literal" := by
  constructor
  · have hf : pyFindAux sub (pySliceFrom st.data (pyDiv st.bitPos 8)) 0 = -1 :=
      pyFindAux_not_found sub hne _ habs 0
    unfold findB
    rw [if_neg (by simp [h8])]
    show Except.ok (pyFindAux sub (pySliceFrom st.data (pyDiv st.bitPos 8)) 0 * 8, st)
        = Except.ok (-8, st)
    rw [hf]
    norm_num
  · rfl

/-- Witness for C10 at a concrete buffer and literal. -/
theorem c10_find_not_found_witness :
    findB ⟨[0x11, 0x22], 0, 0⟩ [0xAA] = .ok (-8, ⟨[0x11, 0x22], 0, 0⟩)
    ∧ handleMarker { extInit [0x11] with tok := "m^" } [0xAA]
      = .error "Marker scan consumption did not match expected bytes literal" :=
  c10_find_not_found ⟨[0x11, 0x22], 0, 0⟩ [0xAA] (by decide) (by decide) (by decide)

end Bitarchitect
